import Mathlib

/-!
smallsh: a shallow embedding of the job-control core of `smallsh.c`.

The C program is a small interactive shell.  This development embeds the
functions of `smallsh.c` that decide how a command is dispatched
(`is_builtin`, `execute`, `exec_builtin`, `exec_non_builtin`), how its
arguments are rewritten (`redirect_in_out`, `clean`), how finished children are
recorded (`status`, `cleanup`, `kill_everything`), the stop-signal handler
(`catchSIGTSTP`) and the `$$` expansion of `getInput`.

Conventions of the embedding.

* A C string is the sequence of its characters before the terminating NUL.
  Tokens are `String`s, a `char*` that may be `NULL` is an `Option String`.
* The array `char* params[MAX_ARG]` is a list of `Option String`; `main`
  zeroes the array before every `parse`, so an index past the end of the list
  reads as `NULL`.
* `int` values are `Int`; the loop counters of the `for` loops, which only run
  while the counter is positive, are `Nat`.
* The global variables of the program are the fields of `Shell`; everything
  the operating system decides (what `fork`, `waitpid`, `open`, `chdir`,
  `getenv`, `execvp` answer) is read from an explicit `OS` value.
* A function that may call `exit`, replace the process image or block forever
  returns an `Outcome`.
-/

namespace SmallSh

/-! ## Program constants -/

/-- Return value that tells `main` to leave its loop (`#define EXIT 30`). -/
def EXIT : Int := 30

/-- Size of the command buffer (`#define MAX_CHAR 4000`). -/
def MAX_CHAR : Nat := 4000

/-- Size of the argument array (`#define MAX_ARG 700`). -/
def MAX_ARG : Nat := 700

/-! ## The C string functions the program calls -/

/-- Character-wise comparison behind `strcmp`: zero exactly on equal strings,
otherwise the sign of the first difference. -/
def strcmpChars : List Char → List Char → Int
  | [], [] => 0
  | [], _ :: _ => -1
  | _ :: _, [] => 1
  | a :: as, b :: bs =>
    if a = b then strcmpChars as bs else if a.toNat < b.toNat then -1 else 1

/-- The libc function `strcmp(a, b)`. -/
def strcmp (a b : String) : Int := strcmpChars a.toList b.toList

/-- Search behind `strstr`: the offset of the first place of `hay` where
`needle` starts, `none` for the `NULL` result.  An empty needle is found at
offset 0. -/
def strstrChars (needle : List Char) : List Char → Option Nat
  | [] => if needle.isPrefixOf [] then some 0 else none
  | c :: hay =>
    if needle.isPrefixOf (c :: hay) then some 0
    else (strstrChars needle hay).map (fun k => k + 1)

/-- The libc function `strstr(haystack, needle)`; `none` is `NULL`. -/
def strstr (haystack needle : String) : Option Nat :=
  strstrChars needle.toList haystack.toList

/-- The array read `params[i]`; past the tokens the zeroed array holds `NULL`. -/
def param (params : List (Option String)) (i : Nat) : Option String :=
  params.getD i none

/-- The test `strcmp(params[i], s) == 0`.  The program only evaluates it on
entries that hold a token; on a `NULL` entry the C call is undefined and the
embedding answers `false`. -/
def tokenIs (p : Option String) (s : String) : Bool :=
  match p with
  | some t => strcmp t s == 0
  | none => false

/-! ## is_builtin -/

/-- The local `char* builtin = " cd status exit "` of `is_builtin`. -/
def builtin : String := " cd status exit "

/-- Source function `is_builtin`: 0 when `strstr(builtin, params[0])` is
`NULL`, 1 otherwise.  (`params[0]` is a token whenever `main` calls
`execute`; for a `NULL` entry the embedding answers 0.) -/
def is_builtin (params : List (Option String)) : Int :=
  match param params 0 with
  | some t => if strstr builtin t = none then 0 else 1
  | none => 0

/-! ## Wait statuses -/

/-- What `waitpid` stores in `childExitMethod`: the way a child changed
state, as the `<sys/wait.h>` macros classify it. -/
inductive WaitStatus where
  | exited (code : Int)
  | signaled (sig : Int)
  | stopped (sig : Int)
  | continued
  deriving DecidableEq, Repr

/-- Macro `WIFEXITED`: nonzero when the child terminated normally. -/
def WIFEXITED : WaitStatus → Int
  | .exited _ => 1
  | _ => 0

/-- Macro `WEXITSTATUS`: the exit code of a child that terminated normally. -/
def WEXITSTATUS : WaitStatus → Int
  | .exited code => code
  | _ => 0

/-- Macro `WIFSIGNALED`: nonzero when the child was terminated by a signal. -/
def WIFSIGNALED : WaitStatus → Int
  | .signaled _ => 1
  | _ => 0

/-- Macro `WTERMSIG`: the number of the signal that terminated the child. -/
def WTERMSIG : WaitStatus → Int
  | .signaled sig => sig
  | _ => 0

/-! ## File descriptors -/

/-- The three flag sets the program passes to `open`. -/
inductive OpenMode where
  | rdonly
  | wronly
  | wronly_creat_trunc
  deriving DecidableEq, Repr

/-- An open file description: the path it was opened from and how. -/
structure OpenFile where
  path : String
  mode : OpenMode
  deriving DecidableEq, Repr

/-- The descriptor table of a process: entry `fd` is what descriptor `fd` is
bound to, `none` (or past the end) when it is closed. -/
abbrev FdTable := List (Option OpenFile)

/-- What descriptor `fd` is bound to. -/
def fdGet (t : FdTable) (fd : Int) : Option OpenFile :=
  if fd < 0 then none else t.getD fd.toNat none

/-- Bind descriptor `fd`, growing the table when `fd` is past its end. -/
def fdSet (t : FdTable) (fd : Nat) (f : OpenFile) : FdTable :=
  if fd < t.length then t.set fd (some f)
  else t ++ List.replicate (fd - t.length) none ++ [some f]

/-- The lowest descriptor that is not open, the one `open` hands out. -/
def lowestFree : FdTable → Nat
  | [] => 0
  | none :: _ => 0
  | some _ :: t => lowestFree t + 1

/-- Signal dispositions. -/
inductive Disposition where
  | default
  | ignore
  | handler (name : String)
  deriving DecidableEq, Repr

/-- The dispositions of the five signals the program sets. -/
structure Signals where
  sigint : Disposition
  sigterm : Disposition
  sigquit : Disposition
  sigtstp : Disposition
  sigchld : Disposition
  deriving DecidableEq, Repr

/-! ## Process state and operating system -/

/-- The state of one process running the program: its global variables
(`foreground_status`, `is_exit`, `special`), its descriptor table, what it has
written to the streams `stdout` and `stderr`, its working directory, the
number of children it has created with `fork`, and its signal dispositions. -/
structure Shell where
  foreground_status : Int
  is_exit : Int
  special : Int
  fds : FdTable
  stdout : List String
  stderr : List String
  cwd : String
  forked : Nat
  signals : Signals
  deriving DecidableEq, Repr

/-- The answers of the operating system during one call: the value `fork`
returns to the caller, the successive results of `waitpid` (return value and
stored status), which `open` calls succeed, which `chdir` calls succeed, the
value of `HOME`, and which programs `execvp` can start. -/
structure OS where
  fork : Int
  waits : List (Int × WaitStatus)
  openable : String → OpenMode → Bool
  chdir : String → Bool
  home : Option String
  execvp : String → Bool

/-- How a call of a function of the program ends: it returns a value, the
process calls `exit`, an `assert` fails, the process image is replaced by
`execvp`, or the process stays blocked in `waitpid`. -/
inductive Outcome where
  | returned (value : Int) (s : Shell)
  | exited (code : Int) (s : Shell)
  | aborted (s : Shell)
  | execed (file : String) (argv : List String) (s : Shell)
  | blocked (s : Shell)
  deriving DecidableEq, Repr

/-- The process state an outcome ends in. -/
def Outcome.state : Outcome → Shell
  | .returned _ s => s
  | .exited _ s => s
  | .aborted s => s
  | .execed _ _ s => s
  | .blocked s => s

/-- `printf(...)` followed by `fflush(stdout)`: one more piece of text on the
standard output stream. -/
def Shell.print (s : Shell) (text : String) : Shell :=
  { s with stdout := s.stdout ++ [text] }

/-- `fprintf(stderr, ...)` or `perror(...)`: one more piece of text on the
error stream (for `perror` the system's error text that follows is left out). -/
def Shell.eprint (s : Shell) (text : String) : Shell :=
  { s with stderr := s.stderr ++ [text] }

/-- System call `open(path, flags)`: -1 for a `NULL` path or a file the system
refuses, otherwise the lowest free descriptor, now bound to the file. -/
def sys_open (os : OS) (t : FdTable) (path : Option String) (mode : OpenMode) :
    Int × FdTable :=
  match path with
  | none => (-1, t)
  | some p =>
    if os.openable p mode then
      ((lowestFree t : Nat), fdSet t (lowestFree t) { path := p, mode := mode })
    else (-1, t)

/-- System call `close(fd)`; a descriptor that is not open is left alone. -/
def sys_close (t : FdTable) (fd : Int) : FdTable :=
  if fd < 0 then t else t.set fd.toNat none

/-- System call `dup2(oldfd, newfd)`; nothing happens when `oldfd` is not
open. -/
def sys_dup2 (t : FdTable) (oldfd : Int) (newfd : Nat) : FdTable :=
  match fdGet t oldfd with
  | none => t
  | some f => fdSet t newfd f

/-! ## Signal handlers and signal setup -/

/-- The text `catchSIGTSTP` writes when `special` is 0. -/
def enteringMessage : String := "\nEntering foreground-only mode (& is now ignored)\n"

/-- The text `catchSIGTSTP` writes when `special` is not 0. -/
def exitingMessage : String := "\nExiting foreground-only mode\n"

/-- System call `write(STDOUT_FILENO, message, n)`: the first `n` characters of
the message go to standard output. -/
def Shell.write (s : Shell) (message : String) (n : Nat) : Shell :=
  s.print (String.mk (message.toList.take n))

/-- Source function `catchSIGTSTP`: write the banner chosen by `special`, then
`special = (special + 1) % 2`. -/
def catchSIGTSTP (s : Shell) : Shell :=
  let s1 := if s.special = 0 then s.write enteringMessage 50 else s.write exitingMessage 30
  { s1 with special := Int.tmod (s1.special + 1) 2 }

/-- Source function `parentSignalSetup`. -/
def parentSignalSetup (s : Shell) : Shell :=
  { s with signals :=
      { s.signals with
        sigtstp := .handler "catchSIGTSTP"
        sigchld := .handler "catchSIGCHLD"
        sigint := .ignore
        sigterm := .ignore } }

/-- Source function `foregroundSignalSetup`. -/
def foregroundSignalSetup (s : Shell) : Shell :=
  { s with signals :=
      { sigint := .default
        sigterm := .ignore
        sigquit := .ignore
        sigtstp := .ignore
        sigchld := .ignore } }

/-- Source function `backgroundSignalSetup`. -/
def backgroundSignalSetup (s : Shell) : Shell :=
  { s with signals :=
      { sigterm := .default
        sigchld := .ignore
        sigtstp := .ignore
        sigint := .ignore
        sigquit := .ignore } }

/-! ## Built-in commands -/

/-- System call `chdir(path)`: 0 and a new working directory on success, -1
otherwise (always -1 for a `NULL` path). -/
def sys_chdir (os : OS) (s : Shell) (path : Option String) : Int × Shell :=
  match path with
  | none => (-1, s)
  | some p => if os.chdir p then (0, { s with cwd := p }) else (-1, s)

/-- Source function `cd`: change to `params[1]`, or to `getenv("HOME")` when
`params[1]` is `NULL`; the result of `chdir` is returned. -/
def cd (os : OS) (s : Shell) (params : List (Option String)) : Int × Shell :=
  match param params 1 with
  | none => sys_chdir os s os.home
  | some filepath => sys_chdir os s (some filepath)

/-- Source function `status`: print `foreground_status` as an exit value when
`is_exit` is 1 and as a terminating signal otherwise; returns 0. -/
def status (s : Shell) : Int × Shell :=
  if s.is_exit = 1 then
    (0, s.print ("exit value " ++ toString s.foreground_status ++ "\n"))
  else
    (0, s.print ("terminated by signal " ++ toString s.foreground_status ++ "\n"))

/-! ## Redirection and argument cleaning -/

/-- The text `fprintf` prints for a `%s` argument (`(null)` for `NULL`). -/
def showToken (p : Option String) : String := p.getD "(null)"

/-- The `for` loop of `redirect_in_out`; `n` is the value of `current`, which
runs from `argc - 1` down to 1. -/
def redirect_scan (os : OS) (params : List (Option String)) :
    Nat → Int → Int → Shell → Outcome
  | 0, _, _, s => .returned 0 s
  | current + 1, inputFD, outputFD, s =>
    if tokenIs (param params (current + 1)) "<" then
      let r := sys_open os (sys_close s.fds inputFD) (param params (current + 2)) .rdonly
      if r.1 < 0 then
        .exited 1 ({ s with fds := r.2 }.eprint
          ("cannot open " ++ showToken (param params (current + 2)) ++ " for input\n"))
      else
        redirect_scan os params current r.1 outputFD { s with fds := sys_dup2 r.2 r.1 0 }
    else if tokenIs (param params (current + 1)) ">" then
      let r := sys_open os (sys_close s.fds outputFD) (param params (current + 2))
        .wronly_creat_trunc
      if r.1 < 1 then
        .exited 1 ({ s with fds := r.2 }.eprint
          ("cannot open " ++ showToken (param params (current + 2)) ++ " for output\n"))
      else
        redirect_scan os params current inputFD r.1 { s with fds := sys_dup2 r.2 r.1 1 }
    else
      redirect_scan os params current inputFD outputFD s

/-- Source function `redirect_in_out`: for a background command first bind
descriptors 0 and 1 to `/dev/null`, then scan the arguments from the last one
down to index 1 for `<` and `>`. -/
def redirect_in_out (os : OS) (s : Shell) (params : List (Option String)) (argc : Nat)
    (foreground : Int) : Outcome :=
  if foreground = 0 then
    let i := sys_open os s.fds (some "/dev/null") .rdonly
    let t1 := sys_dup2 i.2 i.1 0
    let o := sys_open os t1 (some "/dev/null") .wronly
    let t2 := sys_dup2 o.2 o.1 1
    redirect_scan os params (argc - 1) i.1 o.1 { s with fds := t2 }
  else
    redirect_scan os params (argc - 1) (-1) (-1) s

/-- The `for` loop of `clean`; `n` is the value of `current`, which runs from
`argc - 2` down to 1. -/
def clean_scan : Nat → List (Option String) → List (Option String)
  | 0, params => params
  | current + 1, params =>
    if tokenIs (param params (current + 1)) "<" || tokenIs (param params (current + 1)) ">" then
      clean_scan current ((params.set (current + 1) none).set (current + 2) none)
    else
      clean_scan current params

/-- Source function `clean`: overwrite a final `&` with `NULL`, then overwrite
every `<` or `>` found at an index from `argc - 2` down to 1, and the entry
after it, with `NULL`. -/
def clean (params : List (Option String)) (argc : Nat) : List (Option String) :=
  clean_scan (argc - 2)
    (if tokenIs (param params (argc - 1)) "&" then params.set (argc - 1) none else params)

/-- The argument list `execvp(params[0], params)` passes on: the entries
before the first `NULL`. -/
def argv : List (Option String) → List String
  | [] => []
  | none :: _ => []
  | some t :: rest => t :: argv rest

/-- Source function `is_foreground`: 0 when the last token is `&`, 1
otherwise; `none` when one of its two `assert`s fails. -/
def is_foreground (params : List (Option String)) (argc : Nat) : Option Int :=
  if argc = 0 then none
  else match param params (argc - 1) with
    | none => none
    | some t => if strcmp t "&" = 0 then some 0 else some 1

/-! ## Running commands -/

/-- The value of the local `foreground` of `exec_non_builtin` when it reaches
`fork`: the answer of `is_foreground`, replaced by 1 when `special` is 1. -/
def foreground_decision (s : Shell) (params : List (Option String)) (argc : Nat) :
    Option Int :=
  (is_foreground params argc).map (fun foreground => if s.special = 1 then 1 else foreground)

/-- The loop `while (waitpid(spawnpid, &childExitMethod, 0) != spawnpid)`: the
status stored by the first `waitpid` that returns `spawnpid`, `none` when no
answer of the system ever does. -/
def wait_for (spawnpid : Int) : List (Int × WaitStatus) → Option WaitStatus
  | [] => none
  | (r, st) :: rest => if r ≠ spawnpid then wait_for spawnpid rest else some st

/-- Case 0 of the `switch` in `exec_non_builtin`, the code the child runs. -/
def child_path (os : OS) (s : Shell) (params : List (Option String)) (argc : Nat)
    (foreground : Int) : Outcome :=
  match redirect_in_out os
      (if foreground = 1 then foregroundSignalSetup s else backgroundSignalSetup s)
      params argc foreground with
  | .returned _ s1 =>
    match param (clean params argc) 0 with
    | some file =>
      if os.execvp file then .execed file (argv (clean params argc)) s1
      else .exited 1 (s1.print (file ++ ": no such file or directory\n"))
    | none => .exited 1 (s1.print ("(null): no such file or directory\n"))
  | o => o

/-- The default case of the `switch` in `exec_non_builtin`, the code the
parent runs after a successful `fork`. -/
def parent_path (os : OS) (s : Shell) (spawnpid : Int) (foreground : Int) : Outcome :=
  if foreground = 1 then
    match wait_for spawnpid os.waits with
    | none => .blocked s
    | some childExitMethod =>
      if WIFEXITED childExitMethod ≠ 0 then
        .returned 0 { s with foreground_status := WEXITSTATUS childExitMethod, is_exit := 1 }
      else if WIFSIGNALED childExitMethod ≠ 0 then
        .returned 0
          { s.print ("terminated by signal " ++ toString (WTERMSIG childExitMethod) ++ "\n") with
            foreground_status := WTERMSIG childExitMethod, is_exit := 0 }
      else
        .exited 1 (s.eprint "Failure to find child exit! \n")
  else
    .returned 0 (s.print ("background pid is " ++ toString spawnpid ++ "\n"))

/-- Source function `exec_non_builtin`.  `os.fork` is what `fork()` returns in
the process that runs this call: -1 when no process could be created, 0 when
this process is the new child, the child's id in the parent. -/
def exec_non_builtin (os : OS) (s : Shell) (params : List (Option String)) (argc : Nat) :
    Outcome :=
  match foreground_decision s params argc with
  | none => .aborted s
  | some foreground =>
    if os.fork = -1 then .exited 1 (s.eprint "Failure to spawn a process!\n")
    else if os.fork = 0 then child_path os s params argc foreground
    else parent_path os { s with forked := s.forked + 1 } os.fork foreground

/-- Source function `exec_builtin`. -/
def exec_builtin (os : OS) (s : Shell) (params : List (Option String)) (argc : Nat) :
    Outcome :=
  match redirect_in_out os s params argc 1 with
  | .returned _ s1 =>
    if tokenIs (param params 0) "cd" then
      .returned 0 (cd os s1 (clean params argc)).2
    else if tokenIs (param params 0) "status" then
      .returned 0 (status s1).2
    else
      .returned EXIT s1
  | o => o

/-- Source function `execute`. -/
def execute (os : OS) (s : Shell) (params : List (Option String)) (argc : Nat) : Outcome :=
  if is_builtin params = 1 then exec_builtin os s params argc
  else
    match exec_non_builtin os s params argc with
    | .returned _ s1 => .returned 0 s1
    | o => o

/-! ## Reaping -/

/-- The loop of `cleanup` over the answers of `waitpid(-1, ..., WNOHANG)`; when
the answers run out there is no child left and `waitpid` returns -1. -/
def cleanup_loop : List (Int × WaitStatus) → Shell → Outcome
  | [], s => .returned 0 s
  | (childPID, childExitMethod) :: rest, s =>
    if childPID ≠ 0 ∧ childPID ≠ -1 then
      if WIFEXITED childExitMethod ≠ 0 then
        cleanup_loop rest (s.print ("background pid " ++ toString childPID
          ++ " is done: exit value " ++ toString (WEXITSTATUS childExitMethod) ++ "\n"))
      else if WIFSIGNALED childExitMethod ≠ 0 then
        cleanup_loop rest (s.print ("background pid " ++ toString childPID
          ++ " is done: terminated by signal " ++ toString (WTERMSIG childExitMethod) ++ "\n"))
      else
        .exited 1 (s.eprint "Failure to find child exit! \n")
    else .returned 0 s

/-- Source function `cleanup`. -/
def cleanup (os : OS) (s : Shell) : Outcome := cleanup_loop os.waits s

/-- The loop of `kill_everything`: the same sweep as `cleanup`, printing
nothing. -/
def kill_loop : List (Int × WaitStatus) → Shell → Outcome
  | [], s => .returned 0 s
  | (childPID, childExitMethod) :: rest, s =>
    if childPID ≠ 0 ∧ childPID ≠ -1 then
      if WIFEXITED childExitMethod ≠ 0 then kill_loop rest s
      else if WIFSIGNALED childExitMethod ≠ 0 then kill_loop rest s
      else .exited 1 (s.eprint "Failure to find child exit! \n")
    else .returned 0 s

/-- Source function `kill_everything`: `kill(0, SIGTERM)` (which the shell
itself ignores), `sleep(2)`, then the reaping loop. -/
def kill_everything (os : OS) (s : Shell) : Outcome := kill_loop os.waits s

/-! ## Reading a command: the `$$` expansion of `getInput` -/

/-- The terminating character of a C string. -/
def NUL : Char := Char.ofNat 0

/-- The line feed character. -/
def LF : Char := Char.ofNat 10

/-- The dollar sign. -/
def DOLLAR : Char := Char.ofNat 36

/-- The libc function `strlen` on a character array: the number of characters
before the first NUL. -/
def strlen (buf : List Char) : Nat := (buf.takeWhile (fun c => c != NUL)).length

/-- The C string a character array holds: its characters before the first
NUL. -/
def cstring (buf : List Char) : List Char := buf.takeWhile (fun c => c != NUL)

/-- The libc call `strcpy(buf + off, src)`: the characters of `src` and a
terminating NUL are stored from offset `off` on.  (A store past the end of the
array is undefined in C; the embedding drops it.) -/
def strcpy (buf : List Char) (off : Nat) : List Char → List Char
  | [] => buf.set off NUL
  | c :: src => strcpy (buf.set off c) (off + 1) src

/-- The call `memset(command, 0, sizeof(command))` inside `getInput`, where
`command` is a pointer parameter: it clears `sizeof(char*)` = 8 characters. -/
def memsetPointerSize (command : List Char) : List Char :=
  List.replicate (min 8 command.length) NUL ++ command.drop 8

/-- The copy loop of `getInput`.  The first list is what is left of
`lineEntered` from `charsRead` on; `command`, `current` and `dollars` are the
variables of the source. -/
def copy_loop (pid : List Char) : List Char → List Char → Nat → Nat → List Char
  | [], command, _, _ => command
  | c :: rest, command, current, dollars =>
    if current < MAX_CHAR - 2 then
      if c = DOLLAR ∧ dollars = 1 then
        copy_loop pid rest (strcpy command (current - 1) pid)
          (strlen (strcpy command (current - 1) pid)) 0
      else
        copy_loop pid rest (command.set current c) (current + 1)
          (if c = DOLLAR then dollars + 1 else 0)
    else command

/-- The statement `lineEntered[strcspn(lineEntered, "\n")] = 0`: the
characters `getline` delivered, up to the first line feed (or NUL). -/
def chomp (raw : List Char) : List Char :=
  raw.takeWhile (fun c => c != LF && c != NUL)

/-- Source function `getInput`, from the point where `getline` has delivered
the characters `raw`: the line is cut at its first line feed, and copied into
`command` with the copy loop.  `pid` is the global `pid`, the text `main`
printed the process id into. -/
def getInput (pid : List Char) (raw : List Char) (command : List Char) : List Char :=
  copy_loop pid (chomp raw) (memsetPointerSize command) 0 0

/-- The expansion the specification describes: going left to right, each pair
of dollar signs becomes `pid`, every other character stays. -/
def expandDollars (pid : List Char) : List Char → List Char
  | [] => []
  | [c] => [c]
  | c :: d :: rest =>
    if c = DOLLAR ∧ d = DOLLAR then pid ++ expandDollars pid rest
    else c :: expandDollars pid (d :: rest)

/-! ## The state `main` starts from -/

/-- The dispositions a process starts with. -/
def defaultSignals : Signals :=
  { sigint := .default, sigterm := .default, sigquit := .default, sigtstp := .default,
    sigchld := .default }

/-- The shell when `main` reaches its loop: `foreground_status = 0`,
`is_exit = 1`, `special = 0`, the three standard descriptors bound to the
terminal, nothing written, no child created, signals set by
`parentSignalSetup`. -/
def initial : Shell :=
  parentSignalSetup
    { foreground_status := 0, is_exit := 1, special := 0,
      fds := [some { path := "/dev/tty", mode := .rdonly },
              some { path := "/dev/tty", mode := .wronly },
              some { path := "/dev/tty", mode := .wronly }],
      stdout := [], stderr := [], cwd := "/", forked := 0, signals := defaultSignals }

/-- An operating system in which `fork` answers with child id 77, the first
`waitpid` is interrupted and the second reports that child 77 was killed by
signal 2, every file but `nofile` can be opened, every directory but `nodir`
can be entered, and every program can be started. -/
def sampleOS : OS :=
  { fork := 77,
    waits := [(-1, .continued), (77, .signaled 2)],
    openable := fun p _ => p != "nofile",
    chdir := fun p => p != "nodir",
    home := some "/home",
    execvp := fun _ => true }

/-- The initial shell when it was started with standard output closed (as by
`smallsh >&-`): descriptor 1 is not open, descriptors 0 and 2 are bound to the
terminal. -/
def stdoutClosed : Shell :=
  { initial with
    fds := [some { path := "/dev/tty", mode := .rdonly }, none,
            some { path := "/dev/tty", mode := .wronly }] }

/-! ## Facts about the string functions -/

theorem strcmpChars_eq_zero (a b : List Char) : strcmpChars a b = 0 ↔ a = b := by
  induction a generalizing b with
  | nil => cases b <;> simp [strcmpChars]
  | cons x xs ih =>
    cases b with
    | nil => simp [strcmpChars]
    | cons y ys =>
      by_cases hxy : x = y
      · simp [strcmpChars, hxy, ih]
      · by_cases hlt : x.toNat < y.toNat <;> simp [strcmpChars, hxy, hlt]

theorem strcmp_eq_zero (a b : String) : strcmp a b = 0 ↔ a = b := by
  unfold strcmp
  rw [strcmpChars_eq_zero]
  constructor
  · intro h
    exact String.ext h
  · intro h
    rw [h]

theorem tokenIs_iff (p : Option String) (t : String) : tokenIs p t = true ↔ p = some t := by
  cases p with
  | none => simp [tokenIs]
  | some a => simp [tokenIs, strcmp_eq_zero]

/-! ## C1: which first tokens `is_builtin` accepts -/

/-- C1: `is_builtin` answers 1 for the first tokens "s", "c", "stat" and "it",
which are pieces of the text " cd status exit " but none of the three command
names. -/
theorem is_builtin_accepts_fragments :
    is_builtin [some "s"] = 1 ∧ is_builtin [some "c"] = 1 ∧
    is_builtin [some "stat"] = 1 ∧ is_builtin [some "it"] = 1 := by
  decide

/-! ## C2: processes created by `execute` -/

/-- C2: for the first token "s", which is not a built-in name, `execute`
returns `EXIT` with the process state untouched: no process was created. -/
theorem execute_fragment_forks_nothing (os : OS) (s : Shell) :
    execute os s [some "s"] 1 = Outcome.returned EXIT s ∧
    (execute os s [some "s"] 1).state.forked = s.forked := by
  constructor <;> rfl

/-! ## C3: the foreground decision -/

theorem wait_for_mem (spawnpid : Int) (ws : List (Int × WaitStatus)) (st : WaitStatus)
    (h : wait_for spawnpid ws = some st) : (spawnpid, st) ∈ ws := by
  induction ws with
  | nil => simp [wait_for] at h
  | cons e rest ih =>
    obtain ⟨r, st1⟩ := e
    by_cases hr : r = spawnpid
    · simp [wait_for, hr] at h
      simp [hr, h]
    · simp [wait_for, hr] at h
      exact List.mem_cons_of_mem _ (ih h)

theorem wait_for_none (spawnpid : Int) (ws : List (Int × WaitStatus))
    (h : ∀ e ∈ ws, e.1 ≠ spawnpid) : wait_for spawnpid ws = none := by
  induction ws with
  | nil => rfl
  | cons e rest ih =>
    obtain ⟨r, st1⟩ := e
    have hr : r ≠ spawnpid := h (r, st1) (List.mem_cons_self _ _)
    simp only [wait_for, hr, ne_eq, not_false_eq_true, if_true]
    exact ih (fun e he => h e (List.mem_cons_of_mem _ he))

theorem foreground_decision_eq (s : Shell) (params : List (Option String)) (argc : Nat)
    (t : String) (hargc : 1 ≤ argc) (hlast : param params (argc - 1) = some t) :
    foreground_decision s params argc =
      some (if s.special = 1 then 1 else if t = "&" then 0 else 1) := by
  have h0 : argc ≠ 0 := by omega
  by_cases ht : t = "&"
  · have hc : strcmp t "&" = 0 := (strcmp_eq_zero _ _).2 ht
    simp only [foreground_decision, is_foreground, h0, hlast, hc, if_true, if_false,
      Option.map_some']
    simp [ht]
  · have hc : ¬ strcmp t "&" = 0 := fun h => ht ((strcmp_eq_zero _ _).1 h)
    simp [foreground_decision, is_foreground, h0, hlast, hc, ht]

/-- C3: for an argument vector of `argc >= 1` tokens and `special` in {0,1},
the foreground decision of `exec_non_builtin` is 0 (background) exactly when
the last token is "&" and `special` is 0, and it is 1 otherwise; when
`special` is 1 the parent stays blocked as long as no `waitpid` answer is for
the child it forked, and returns only after a `waitpid` answer for that
child. -/
theorem foreground_decision_spec (s : Shell) (params : List (Option String)) (argc : Nat)
    (t : String) (hargc : 1 ≤ argc) (hlast : param params (argc - 1) = some t)
    (hspecial : s.special = 0 ∨ s.special = 1) :
    (foreground_decision s params argc = some 0 ↔ (t = "&" ∧ s.special = 0)) ∧
    (foreground_decision s params argc ≠ some 0 →
      foreground_decision s params argc = some 1) ∧
    (s.special = 1 → ∀ os : OS, os.fork ≠ -1 → os.fork ≠ 0 →
      ((∀ e ∈ os.waits, e.1 ≠ os.fork) →
        exec_non_builtin os s params argc =
          Outcome.blocked { s with forked := s.forked + 1 }) ∧
      (∀ v s1, exec_non_builtin os s params argc = Outcome.returned v s1 →
        ∃ st, (os.fork, st) ∈ os.waits ∧ wait_for os.fork os.waits = some st)) := by
  have hdec := foreground_decision_eq s params argc t hargc hlast
  refine ⟨?_, ?_, ?_⟩
  · rw [hdec]
    rcases hspecial with h | h
    · by_cases ht : t = "&" <;> simp [h, ht]
    · simp [h]
  · rw [hdec]
    rcases hspecial with h | h
    · by_cases ht : t = "&" <;> simp [h, ht]
    · simp [h]
  · intro h1 os hf1 hf0
    have hd1 : foreground_decision s params argc = some 1 := by rw [hdec]; simp [h1]
    constructor
    · intro hnone
      have hw := wait_for_none os.fork os.waits hnone
      simp [exec_non_builtin, hd1, hf1, hf0, parent_path, hw]
    · intro v s1 hret
      cases hw : wait_for os.fork os.waits with
      | none => simp [exec_non_builtin, hd1, hf1, hf0, parent_path, hw] at hret
      | some st => exact ⟨st, wait_for_mem _ _ _ hw, rfl⟩

/-- Witness of C3: the command `sleep 5 &` after one stop signal, when
`special` is 1. -/
theorem foreground_decision_spec_witness :
    (foreground_decision (catchSIGTSTP initial) [some "sleep", some "5", some "&"] 3 = some 0 ↔
      (("&" : String) = "&" ∧ (catchSIGTSTP initial).special = 0)) ∧
    (foreground_decision (catchSIGTSTP initial) [some "sleep", some "5", some "&"] 3 ≠ some 0 →
      foreground_decision (catchSIGTSTP initial) [some "sleep", some "5", some "&"] 3
        = some 1) :=
  ⟨(foreground_decision_spec (catchSIGTSTP initial) [some "sleep", some "5", some "&"] 3 "&"
      (by decide) (by decide) (Or.inr (by decide))).1,
   (foreground_decision_spec (catchSIGTSTP initial) [some "sleep", some "5", some "&"] 3 "&"
      (by decide) (by decide) (Or.inr (by decide))).2.1⟩

/-! ## C4: the record after a foreground wait -/

/-- C4: when `exec_non_builtin` takes the foreground path in the parent and
`waitpid` reports status `st` for the child, a normal exit leaves
`(foreground_status, is_exit) = (exit code, 1)` and prints nothing, a signal
termination leaves `(signal number, 0)` and prints "terminated by signal N";
the `status` built-in run next prints "exit value N", respectively
"terminated by signal N", for that record and does not change it. -/
theorem foreground_wait_records (os : OS) (s : Shell) (params : List (Option String))
    (argc : Nat) (st : WaitStatus)
    (hdec : foreground_decision s params argc = some 1)
    (hf1 : os.fork ≠ -1) (hf0 : os.fork ≠ 0)
    (hwait : wait_for os.fork os.waits = some st) :
    (WIFEXITED st ≠ 0 →
      ∃ s1, exec_non_builtin os s params argc = Outcome.returned 0 s1 ∧
        s1.foreground_status = WEXITSTATUS st ∧ s1.is_exit = 1 ∧
        s1.stdout = s.stdout ∧
        (status s1).2.stdout =
          s1.stdout ++ ["exit value " ++ toString (WEXITSTATUS st) ++ "\n"] ∧
        (status s1).2.foreground_status = WEXITSTATUS st ∧ (status s1).2.is_exit = 1) ∧
    (WIFSIGNALED st ≠ 0 →
      ∃ s1, exec_non_builtin os s params argc = Outcome.returned 0 s1 ∧
        s1.foreground_status = WTERMSIG st ∧ s1.is_exit = 0 ∧
        s1.stdout = s.stdout ++ ["terminated by signal " ++ toString (WTERMSIG st) ++ "\n"] ∧
        (status s1).2.stdout =
          s1.stdout ++ ["terminated by signal " ++ toString (WTERMSIG st) ++ "\n"] ∧
        (status s1).2.foreground_status = WTERMSIG st ∧ (status s1).2.is_exit = 0) := by
  constructor
  · intro hex
    cases st with
    | exited code =>
      refine ⟨{ s with forked := s.forked + 1, foreground_status := code, is_exit := 1 },
        ?_, ?_⟩
      · simp [exec_non_builtin, hdec, hf1, hf0, parent_path, hwait, WIFEXITED, WEXITSTATUS]
      · simp [status, Shell.print, WEXITSTATUS]
    | signaled sig => simp [WIFEXITED] at hex
    | stopped sig => simp [WIFEXITED] at hex
    | continued => simp [WIFEXITED] at hex
  · intro hsig
    cases st with
    | exited code => simp [WIFSIGNALED] at hsig
    | signaled sig =>
      refine ⟨{ s with forked := s.forked + 1, foreground_status := sig, is_exit := 0,
                       stdout := s.stdout ++ ["terminated by signal " ++ toString sig ++ "\n"] },
        ?_, ?_⟩
      · simp [exec_non_builtin, hdec, hf1, hf0, parent_path, hwait, WIFEXITED, WIFSIGNALED,
          WTERMSIG, Shell.print]
      · simp [status, Shell.print, WTERMSIG]
    | stopped sig => simp [WIFSIGNALED] at hsig
    | continued => simp [WIFSIGNALED] at hsig

/-- Witness of C4: `sleep 5` run from the initial shell, the child being
killed by signal 2. -/
theorem foreground_wait_records_witness :
    ∃ s1, exec_non_builtin sampleOS initial [some "sleep", some "5"] 2
        = Outcome.returned 0 s1 ∧
      s1.foreground_status = WTERMSIG (WaitStatus.signaled 2) ∧ s1.is_exit = 0 ∧
      s1.stdout = initial.stdout ++
        ["terminated by signal " ++ toString (WTERMSIG (WaitStatus.signaled 2)) ++ "\n"] ∧
      (status s1).2.stdout = s1.stdout ++
        ["terminated by signal " ++ toString (WTERMSIG (WaitStatus.signaled 2)) ++ "\n"] ∧
      (status s1).2.foreground_status = WTERMSIG (WaitStatus.signaled 2) ∧
      (status s1).2.is_exit = 0 :=
  (foreground_wait_records sampleOS initial [some "sleep", some "5"] 2 (WaitStatus.signaled 2)
    (by decide) (by decide) (by decide) (by decide)).2 (by decide)

/-! ## C5: reaping leaves the record alone -/

theorem cleanup_loop_record (ws : List (Int × WaitStatus)) (s : Shell) :
    (cleanup_loop ws s).state.foreground_status = s.foreground_status ∧
    (cleanup_loop ws s).state.is_exit = s.is_exit := by
  induction ws generalizing s with
  | nil => simp [cleanup_loop, Outcome.state]
  | cons e rest ih =>
    obtain ⟨childPID, st⟩ := e
    unfold cleanup_loop
    split_ifs
    · have h := ih (s.print ("background pid " ++ toString childPID
        ++ " is done: exit value " ++ toString (WEXITSTATUS st) ++ "\n"))
      simpa [Shell.print] using h
    · have h := ih (s.print ("background pid " ++ toString childPID
        ++ " is done: terminated by signal " ++ toString (WTERMSIG st) ++ "\n"))
      simpa [Shell.print] using h
    · simp [Outcome.state, Shell.eprint]
    · simp [Outcome.state]

theorem kill_loop_record (ws : List (Int × WaitStatus)) (s : Shell) :
    (kill_loop ws s).state.foreground_status = s.foreground_status ∧
    (kill_loop ws s).state.is_exit = s.is_exit := by
  induction ws generalizing s with
  | nil => simp [kill_loop, Outcome.state]
  | cons e rest ih =>
    obtain ⟨childPID, st⟩ := e
    unfold kill_loop
    split_ifs
    · exact ih s
    · exact ih s
    · simp [Outcome.state, Shell.eprint]
    · simp [Outcome.state]

/-- C5: whatever statuses `waitpid` reports, `cleanup` and `kill_everything`
end (by returning or by `exit`) in a state whose `foreground_status` and
`is_exit` are the ones they started with; and the background branch of
`exec_non_builtin` (last token "&", `special = 0`, `fork` succeeded in the
parent) returns 0 with both unchanged. -/
theorem background_keeps_record (os : OS) (s : Shell) :
    ((cleanup os s).state.foreground_status = s.foreground_status ∧
      (cleanup os s).state.is_exit = s.is_exit) ∧
    ((kill_everything os s).state.foreground_status = s.foreground_status ∧
      (kill_everything os s).state.is_exit = s.is_exit) ∧
    (∀ (params : List (Option String)) (argc : Nat), 1 ≤ argc →
      param params (argc - 1) = some "&" → s.special = 0 → os.fork ≠ -1 → os.fork ≠ 0 →
      ∃ s1, exec_non_builtin os s params argc = Outcome.returned 0 s1 ∧
        s1.foreground_status = s.foreground_status ∧ s1.is_exit = s.is_exit) := by
  refine ⟨cleanup_loop_record os.waits s, kill_loop_record os.waits s, ?_⟩
  intro params argc hargc hlast hsp hf1 hf0
  have hdec := foreground_decision_eq s params argc "&" hargc hlast
  simp only [hsp] at hdec
  refine ⟨{ s with forked := s.forked + 1 }.print
    ("background pid is " ++ toString os.fork ++ "\n"), ?_, ?_⟩
  · simp [exec_non_builtin, hdec, hf1, hf0, parent_path]
  · simp [Shell.print]

/-- Witness of C5: `sleep 5 &` run from the initial shell. -/
theorem background_keeps_record_witness :
    ∃ s1, exec_non_builtin sampleOS initial [some "sleep", some "5", some "&"] 3
        = Outcome.returned 0 s1 ∧
      s1.foreground_status = initial.foreground_status ∧ s1.is_exit = initial.is_exit :=
  (background_keeps_record sampleOS initial).2.2 [some "sleep", some "5", some "&"] 3
    (by decide) (by decide) (by decide) (by decide) (by decide)

/-! ## C6: the stop-signal handler -/

/-- C6: for `special` in {0,1}, two runs of `catchSIGTSTP` give back the
original `special`, one run gives the other value of {0,1}, and the run writes
the "Entering foreground-only mode" banner exactly when `special` was 0 and
the "Exiting foreground-only mode" banner otherwise. -/
theorem catchSIGTSTP_toggles (s : Shell) (h : s.special = 0 ∨ s.special = 1) :
    (catchSIGTSTP (catchSIGTSTP s)).special = s.special ∧
    (catchSIGTSTP s).special = 1 - s.special ∧
    ((catchSIGTSTP s).special = 0 ∨ (catchSIGTSTP s).special = 1) ∧
    (catchSIGTSTP s).special ≠ s.special ∧
    (catchSIGTSTP s).stdout =
      s.stdout ++ [if s.special = 0 then enteringMessage else exitingMessage] := by
  have he : String.mk (List.take 50 enteringMessage.data) = enteringMessage := by decide
  have hx : String.mk (List.take 30 exitingMessage.data) = exitingMessage := by decide
  have t1 : Int.tmod 1 2 = 1 := by decide
  have t2 : Int.tmod (1 + 1) 2 = 0 := by decide
  rcases h with h | h
  · simp [catchSIGTSTP, Shell.write, Shell.print, h, he, hx, t1, t2]
  · simp [catchSIGTSTP, Shell.write, Shell.print, h, he, hx, t1, t2]

/-- Witness of C6: the first stop signal the initial shell receives. -/
theorem catchSIGTSTP_toggles_witness :
    (catchSIGTSTP (catchSIGTSTP initial)).special = initial.special ∧
    (catchSIGTSTP initial).special = 1 - initial.special ∧
    ((catchSIGTSTP initial).special = 0 ∨ (catchSIGTSTP initial).special = 1) ∧
    (catchSIGTSTP initial).special ≠ initial.special ∧
    (catchSIGTSTP initial).stdout =
      initial.stdout ++ [if initial.special = 0 then enteringMessage else exitingMessage] :=
  catchSIGTSTP_toggles initial (Or.inl (by decide))

/-! ## C7: what `clean` overwrites -/

theorem param_set_none (p : List (Option String)) (i j : Nat) :
    param (p.set i none) j = if i = j then none else param p j := by
  unfold param
  rw [List.getD_eq_getElem?_getD, List.getD_eq_getElem?_getD, List.getElem?_set]
  by_cases hij : i = j
  · subst hij
    by_cases hlt : i < p.length <;> simp [hlt]
  · simp [hij]

theorem clean_scan_none_or_same (n : Nat) (p : List (Option String)) (j : Nat) :
    param (clean_scan n p) j = none ∨ param (clean_scan n p) j = param p j := by
  induction n generalizing p with
  | zero => right; rfl
  | succ n ih =>
    unfold clean_scan
    split_ifs with hc
    · rcases ih ((p.set (n + 1) none).set (n + 2) none) with h | h
      · left; exact h
      · rw [h, param_set_none, param_set_none]
        by_cases h2 : n + 2 = j
        · left; simp [h2]
        · by_cases h1 : n + 1 = j
          · left; simp [h1, h2]
          · right; simp [h1, h2]
    · exact ih p

theorem clean_scan_zero (n : Nat) (p : List (Option String)) :
    param (clean_scan n p) 0 = param p 0 := by
  induction n generalizing p with
  | zero => rfl
  | succ n ih =>
    unfold clean_scan
    split_ifs with hc
    · rw [ih, param_set_none, param_set_none]
      simp
    · exact ih p

theorem clean_scan_removes (n : Nat) (p : List (Option String)) (i : Nat)
    (h1 : 1 ≤ i) (hn : i ≤ n) (hop : param p i = some "<" ∨ param p i = some ">") :
    param (clean_scan n p) i = none ∧ param (clean_scan n p) (i + 1) = none := by
  induction n generalizing p with
  | zero => omega
  | succ n ih =>
    unfold clean_scan
    split_ifs with hc
    · by_cases hi : i ≤ n
      · apply ih _ hi
        rw [param_set_none, param_set_none]
        have e1 : ¬ n + 2 = i := by omega
        have e2 : ¬ n + 1 = i := by omega
        simpa [e1, e2] using hop
      · have hi1 : i = n + 1 := by omega
        subst hi1
        have a1 : param ((p.set (n + 1) none).set (n + 2) none) (n + 1) = none := by
          rw [param_set_none, param_set_none]; simp
        have a2 : param ((p.set (n + 1) none).set (n + 2) none) (n + 1 + 1) = none := by
          rw [param_set_none]; simp
        constructor
        · rcases clean_scan_none_or_same n ((p.set (n + 1) none).set (n + 2) none) (n + 1)
            with h | h
          · exact h
          · rw [h, a1]
        · rcases clean_scan_none_or_same n ((p.set (n + 1) none).set (n + 2) none)
            (n + 1 + 1) with h | h
          · exact h
          · rw [h, a2]
    · by_cases hi : i ≤ n
      · exact ih _ hi hop
      · have hi1 : i = n + 1 := by omega
        subst hi1
        exfalso
        apply hc
        rcases hop with h | h
        · simp [(tokenIs_iff _ _).2 h]
        · simp [(tokenIs_iff _ _).2 h]

/-- C7, as the claim states it, fails: in `cat <` the final token "<" is
still there after `clean`, and in `< f` the token "<" at index 0 and the
token after it are still there. -/
theorem clean_keeps_edge_redirections :
    clean [some "cat", some "<"] 2 = [some "cat", some "<"] ∧
    clean [some "<", some "f"] 2 = [some "<", some "f"] := by
  decide

/-- C7, amended: for an argument vector of `argc >= 1` tokens, after
`clean(params, argc)` a final "&" has become the terminator; every index `i`
with `1 <= i <= argc - 2` that held "<" or ">" holds the terminator and so
does index `i + 1`; no index from 1 to `argc - 2` holds "<" or ">"; and for
`argc >= 2` index 0 is unchanged. -/
theorem clean_removes_inner_redirections (params : List (Option String)) (argc : Nat)
    (hargc : 1 ≤ argc) (_htok : ∀ i, i < argc → param params i ≠ none) :
    (param params (argc - 1) = some "&" → param (clean params argc) (argc - 1) = none) ∧
    (∀ i, 1 ≤ i → i + 2 ≤ argc →
      (param params i = some "<" ∨ param params i = some ">") →
      param (clean params argc) i = none ∧ param (clean params argc) (i + 1) = none) ∧
    (∀ i, 1 ≤ i → i + 2 ≤ argc →
      param (clean params argc) i ≠ some "<" ∧ param (clean params argc) i ≠ some ">") ∧
    (2 ≤ argc → param (clean params argc) 0 = param params 0) := by
  have hkeep : ∀ i, i + 2 ≤ argc →
      param (if tokenIs (param params (argc - 1)) "&" = true
        then params.set (argc - 1) none else params) i = param params i := by
    intro i hi
    split_ifs
    · rw [param_set_none]
      have : ¬ argc - 1 = i := by omega
      simp [this]
    · rfl
  have hrem : ∀ i, 1 ≤ i → i + 2 ≤ argc →
      (param params i = some "<" ∨ param params i = some ">") →
      param (clean params argc) i = none ∧ param (clean params argc) (i + 1) = none := by
    intro i h1 h2 hop
    unfold clean
    apply clean_scan_removes _ _ i h1 (by omega)
    rw [hkeep i h2]
    exact hop
  refine ⟨?_, hrem, ?_, ?_⟩
  · intro hamp
    unfold clean
    rw [if_pos ((tokenIs_iff _ _).2 hamp)]
    rcases clean_scan_none_or_same (argc - 2) (params.set (argc - 1) none) (argc - 1)
      with h | h
    · exact h
    · rw [h, param_set_none]; simp
  · intro i h1 h2
    by_cases hop : param params i = some "<" ∨ param params i = some ">"
    · rw [(hrem i h1 h2 hop).1]
      simp
    · have hsame : param (clean params argc) i = none ∨
          param (clean params argc) i = param params i := by
        unfold clean
        rcases clean_scan_none_or_same (argc - 2) (if tokenIs (param params (argc - 1)) "&" = true
          then params.set (argc - 1) none else params) i with h | h
        · left; exact h
        · right; rw [h, hkeep i h2]
      rcases hsame with h | h
      · rw [h]; simp
      · rw [h]
        exact ⟨fun e => hop (Or.inl e), fun e => hop (Or.inr e)⟩
  · intro h2
    unfold clean
    rw [clean_scan_zero, hkeep 0 (by omega)]

/-- Witness of C7 amended: `cat < a > b &`. -/
theorem clean_removes_inner_redirections_witness :
    param (clean [some "cat", some "<", some "a", some ">", some "b", some "&"] 6) 1 = none ∧
    param (clean [some "cat", some "<", some "a", some ">", some "b", some "&"] 6) (1 + 1)
      = none :=
  (clean_removes_inner_redirections
    [some "cat", some "<", some "a", some ">", some "b", some "&"] 6 (by decide)
    (by decide)).2.1 1 (by decide) (by decide) (Or.inl (by decide))

/-! ## C10: a failed redirection in a built-in -/

/-- C10: when `nofile` cannot be opened, `execute` on the built-in line
`cd < nofile` (and on `status > nofile`) ends in `exit(1)` inside the process
that called it, the shell itself, after the "cannot open" message; no process
was created. -/
theorem builtin_redirection_failure_exits (os : OS) (s : Shell)
    (hin : os.openable "nofile" .rdonly = false)
    (hout : os.openable "nofile" .wronly_creat_trunc = false) :
    execute os s [some "cd", some "<", some "nofile"] 3 =
      Outcome.exited 1 (s.eprint "cannot open nofile for input\n") ∧
    execute os s [some "status", some ">", some "nofile"] 3 =
      Outcome.exited 1 (s.eprint "cannot open nofile for output\n") := by
  have hb1 : is_builtin [some "cd", some "<", some "nofile"] = 1 := by decide
  have hb2 : is_builtin [some "status", some ">", some "nofile"] = 1 := by decide
  have h1 : tokenIs (some "nofile") "<" = false := by decide
  have h2 : tokenIs (some "nofile") ">" = false := by decide
  have h3 : tokenIs (some "<") "<" = true := by decide
  have h4 : tokenIs (some ">") "<" = false := by decide
  have h5 : tokenIs (some ">") ">" = true := by decide
  constructor
  · simp only [execute, hb1, if_true, exec_builtin, redirect_in_out]
    simp [redirect_scan, param, h1, h2, h3, sys_open, sys_close, hin, showToken,
      Shell.eprint]
  · simp only [execute, hb2, if_true, exec_builtin, redirect_in_out]
    simp [redirect_scan, param, h1, h2, h4, h5, sys_open, sys_close, hout, showToken,
      Shell.eprint]

/-- Witness of C10: the sample operating system refuses to open `nofile`. -/
theorem builtin_redirection_failure_exits_witness :
    execute sampleOS initial [some "cd", some "<", some "nofile"] 3 =
      Outcome.exited 1 (initial.eprint "cannot open nofile for input\n") ∧
    execute sampleOS initial [some "status", some ">", some "nofile"] 3 =
      Outcome.exited 1 (initial.eprint "cannot open nofile for output\n") :=
  builtin_redirection_failure_exits sampleOS initial (by decide) (by decide)

/-! ## C8: what `redirect_in_out` binds the standard streams to -/

theorem fdGet_natCast (t : FdTable) (n : Nat) : fdGet t (n : Int) = t.getD n none := by
  simp [fdGet]

theorem getD_fdSet (t : FdTable) (k : Nat) (f : OpenFile) (j : Nat) :
    (fdSet t k f).getD j none = if j = k then some f else t.getD j none := by
  unfold fdSet
  rw [List.getD_eq_getElem?_getD, List.getD_eq_getElem?_getD]
  by_cases hk : k < t.length
  · rw [if_pos hk, List.getElem?_set]
    by_cases hjk : j = k
    · subst hjk; simp [hk]
    · have : ¬ k = j := fun e => hjk e.symm
      simp [hjk, this]
  · rw [if_neg hk]
    by_cases hjk : j = k
    · subst hjk
      rw [List.getElem?_append_right (by simp; omega)]
      have hz : j - (t ++ List.replicate (j - t.length) none).length = 0 := by
        simp; omega
      rw [hz]
      simp
    · rw [if_neg hjk]
      by_cases hj : j < t.length
      · rw [List.append_assoc, List.getElem?_append_left hj]
      · rw [List.getElem?_eq_none (Nat.le_of_not_lt hj)]
        by_cases hj2 : j < k
        · rw [List.getElem?_append_left (by simp; omega),
            List.getElem?_append_right (Nat.le_of_not_lt hj), List.getElem?_replicate]
          have : j - t.length < k - t.length := by omega
          simp [this]
        · rw [List.getElem?_eq_none (by simp; omega)]

theorem fdGet_fdSet (t : FdTable) (k : Nat) (f : OpenFile) (j : Nat) :
    fdGet (fdSet t k f) (j : Int) = if j = k then some f else fdGet t (j : Int) := by
  rw [fdGet_natCast, fdGet_natCast, getD_fdSet]

theorem fdGet_set_none (t : FdTable) (k j : Nat) (hjk : j ≠ k) :
    fdGet (t.set k none) (j : Int) = fdGet t (j : Int) := by
  rw [fdGet_natCast, fdGet_natCast, List.getD_eq_getElem?_getD, List.getD_eq_getElem?_getD,
    List.getElem?_set_ne (fun e => hjk e.symm)]

theorem lowestFree_ge_two (t : FdTable) (h0 : fdGet t 0 ≠ none) (h1 : fdGet t 1 ≠ none) :
    2 ≤ lowestFree t := by
  have e0 : fdGet t 0 = t.getD 0 none := fdGet_natCast t 0
  have e1 : fdGet t 1 = t.getD 1 none := fdGet_natCast t 1
  rw [e0] at h0
  rw [e1] at h1
  match t, h0, h1 with
  | [], h0, _ => simp at h0
  | none :: _, h0, _ => simp at h0
  | [some _], _, h1 => simp at h1
  | some _ :: none :: _, _, h1 => simp at h1
  | some _ :: some _ :: rest, _, _ => simp [lowestFree]

/-- One `close`, `open`, `dup2` step of the scan, for a descriptor variable
that is -1 or at least 2 while descriptors 0 and 1 are open. -/
theorem open_dup_step (os : OS) (t : FdTable) (fd : Int) (p : String) (m : OpenMode)
    (k : Nat) (h0 : fdGet t 0 ≠ none) (h1 : fdGet t 1 ≠ none)
    (hfd : fd = -1 ∨ 2 ≤ fd) (hopen : os.openable p m = true) :
    2 ≤ (sys_open os (sys_close t fd) (some p) m).1 ∧
    fdGet (sys_dup2 (sys_open os (sys_close t fd) (some p) m).2
      (sys_open os (sys_close t fd) (some p) m).1 k) (k : Int) = some { path := p, mode := m } ∧
    (∀ j : Nat, j < 2 → j ≠ k →
      fdGet (sys_dup2 (sys_open os (sys_close t fd) (some p) m).2
        (sys_open os (sys_close t fd) (some p) m).1 k) (j : Int) = fdGet t (j : Int)) := by
  have hc : ∀ j : Nat, j < 2 → fdGet (sys_close t fd) (j : Int) = fdGet t (j : Int) := by
    intro j hj
    unfold sys_close
    rcases hfd with h | h
    · simp [h]
    · have hn : ¬ fd < 0 := by omega
      rw [if_neg hn]
      apply fdGet_set_none
      omega
  have c0 : fdGet (sys_close t fd) 0 ≠ none := by
    have := hc 0 (by omega)
    simp only [Nat.cast_zero] at this
    rw [this]; exact h0
  have c1 : fdGet (sys_close t fd) 1 ≠ none := by
    have := hc 1 (by omega)
    simp only [Nat.cast_one] at this
    rw [this]; exact h1
  have hl := lowestFree_ge_two _ c0 c1
  have hopen_eq : sys_open os (sys_close t fd) (some p) m =
      (((lowestFree (sys_close t fd) : Nat) : Int),
        fdSet (sys_close t fd) (lowestFree (sys_close t fd)) { path := p, mode := m }) := by
    simp [sys_open, hopen]
  rw [hopen_eq]
  have hget : fdGet (fdSet (sys_close t fd) (lowestFree (sys_close t fd))
      { path := p, mode := m }) ((lowestFree (sys_close t fd) : Nat) : Int) =
      some { path := p, mode := m } := by
    rw [fdGet_fdSet]; simp
  have hdup : sys_dup2 (fdSet (sys_close t fd) (lowestFree (sys_close t fd))
      { path := p, mode := m }) ((lowestFree (sys_close t fd) : Nat) : Int) k =
      fdSet (fdSet (sys_close t fd) (lowestFree (sys_close t fd)) { path := p, mode := m }) k
        { path := p, mode := m } := by
    simp [sys_dup2, hget]
  refine ⟨?_, ?_, ?_⟩
  · show (2 : Int) ≤ ((lowestFree (sys_close t fd) : Nat) : Int)
    omega
  · show fdGet (sys_dup2 _ _ k) (k : Int) = _
    rw [hdup, fdGet_fdSet]; simp
  · intro j hj hjk
    show fdGet (sys_dup2 _ _ k) (j : Int) = _
    rw [hdup, fdGet_fdSet, if_neg hjk, fdGet_fdSet]
    have : ¬ j = lowestFree (sys_close t fd) := by omega
    rw [if_neg this, hc j hj]

theorem redirect_scan_spec (os : OS) (params : List (Option String)) (n : Nat) :
    ∀ (inputFD outputFD : Int) (s : Shell),
      fdGet s.fds 0 ≠ none → fdGet s.fds 1 ≠ none →
      (inputFD = -1 ∨ 2 ≤ inputFD) → (outputFD = -1 ∨ 2 ≤ outputFD) →
      (∀ i, 1 ≤ i → i ≤ n → param params i = some "<" →
        ∃ f, param params (i + 1) = some f ∧ os.openable f .rdonly = true) →
      (∀ i, 1 ≤ i → i ≤ n → param params i = some ">" →
        ∃ f, param params (i + 1) = some f ∧ os.openable f .wronly_creat_trunc = true) →
      ∃ s1, redirect_scan os params n inputFD outputFD s = Outcome.returned 0 s1 ∧
        (∀ i f, 1 ≤ i → i ≤ n → param params i = some "<" →
          (∀ j, 1 ≤ j → j < i → param params j ≠ some "<") →
          param params (i + 1) = some f →
          fdGet s1.fds 0 = some { path := f, mode := .rdonly }) ∧
        ((∀ j, 1 ≤ j → j ≤ n → param params j ≠ some "<") →
          fdGet s1.fds 0 = fdGet s.fds 0) ∧
        (∀ i f, 1 ≤ i → i ≤ n → param params i = some ">" →
          (∀ j, 1 ≤ j → j < i → param params j ≠ some ">") →
          param params (i + 1) = some f →
          fdGet s1.fds 1 = some { path := f, mode := .wronly_creat_trunc }) ∧
        ((∀ j, 1 ≤ j → j ≤ n → param params j ≠ some ">") →
          fdGet s1.fds 1 = fdGet s.fds 1) := by
  induction n with
  | zero =>
    intro inputFD outputFD s _ _ _ _ _ _
    refine ⟨s, rfl, ?_, fun _ => rfl, ?_, fun _ => rfl⟩
    · intro i f h1 h2; omega
    · intro i f h1 h2; omega
  | succ n ih =>
    intro inputFD outputFD s h0 h1 hi ho hin hout
    have hin1 : ∀ i, 1 ≤ i → i ≤ n → param params i = some "<" →
        ∃ f, param params (i + 1) = some f ∧ os.openable f .rdonly = true :=
      fun i a b c => hin i a (by omega) c
    have hout1 : ∀ i, 1 ≤ i → i ≤ n → param params i = some ">" →
        ∃ f, param params (i + 1) = some f ∧ os.openable f .wronly_creat_trunc = true :=
      fun i a b c => hout i a (by omega) c
    by_cases hlt : param params (n + 1) = some "<"
    · obtain ⟨f, hf, hopen⟩ := hin (n + 1) (by omega) (by omega) hlt
      have key := open_dup_step os s.fds inputFD f .rdonly 0 h0 h1 hi hopen
      generalize hr : sys_open os (sys_close s.fds inputFD) (some f) .rdonly = r at key
      obtain ⟨hge, hk, hother⟩ := key
      have hstep : redirect_scan os params (n + 1) inputFD outputFD s =
          redirect_scan os params n r.1 outputFD { s with fds := sys_dup2 r.2 r.1 0 } := by
        rw [redirect_scan, if_pos ((tokenIs_iff _ _).2 hlt), hf]
        have : ¬ r.1 < 0 := by omega
        simp only [hr, this, if_false]
      have hone := hother 1 (by omega) (by omega)
      simp only [Nat.cast_one, Nat.cast_zero] at hone hk
      obtain ⟨s1, hs1, p1, p2, p3, p4⟩ := ih r.1 outputFD
        { s with fds := sys_dup2 r.2 r.1 0 }
        (by show fdGet (sys_dup2 _ _ 0) 0 ≠ none; rw [hk]; simp)
        (by show fdGet (sys_dup2 _ _ 0) 1 ≠ none; rw [hone]; exact h1)
        (Or.inr hge) ho hin1 hout1
      refine ⟨s1, hstep.trans hs1, ?_, ?_, ?_, ?_⟩
      · intro i g hi1 hi2 hop hlow hg
        by_cases hin' : i ≤ n
        · exact p1 i g hi1 hin' hop hlow hg
        · have hi3 : i = n + 1 := by omega
          subst hi3
          rw [hf] at hg
          have hfg : f = g := Option.some.inj hg
          rw [p2 (fun j a b => hlow j a (by omega))]
          show fdGet (sys_dup2 _ _ 0) 0 = _
          rw [hk, hfg]
      · intro hnone
        exact absurd hlt (hnone (n + 1) (by omega) (by omega))
      · intro i g hi1 hi2 hop hlow hg
        by_cases hin' : i ≤ n
        · exact p3 i g hi1 hin' hop hlow hg
        · have hi3 : i = n + 1 := by omega
          subst hi3
          rw [hlt] at hop
          exact absurd (Option.some.inj hop) (by decide)
      · intro hnone
        rw [p4 (fun j a b => hnone j a (by omega))]
        exact hone
    · by_cases hgt : param params (n + 1) = some ">"
      · obtain ⟨f, hf, hopen⟩ := hout (n + 1) (by omega) (by omega) hgt
        have key := open_dup_step os s.fds outputFD f .wronly_creat_trunc 1 h0 h1 ho hopen
        generalize hr : sys_open os (sys_close s.fds outputFD) (some f) .wronly_creat_trunc = r
          at key
        obtain ⟨hge, hk, hother⟩ := key
        have hnlt : ¬ tokenIs (param params (n + 1)) "<" = true :=
          fun h => hlt ((tokenIs_iff _ _).1 h)
        have hstep : redirect_scan os params (n + 1) inputFD outputFD s =
            redirect_scan os params n inputFD r.1 { s with fds := sys_dup2 r.2 r.1 1 } := by
          rw [redirect_scan, if_neg hnlt, if_pos ((tokenIs_iff _ _).2 hgt), hf]
          have : ¬ r.1 < 1 := by omega
          simp only [hr, this, if_false]
        have hzero := hother 0 (by omega) (by omega)
        simp only [Nat.cast_one, Nat.cast_zero] at hzero hk
        obtain ⟨s1, hs1, p1, p2, p3, p4⟩ := ih inputFD r.1
          { s with fds := sys_dup2 r.2 r.1 1 }
          (by show fdGet (sys_dup2 _ _ 1) 0 ≠ none; rw [hzero]; exact h0)
          (by show fdGet (sys_dup2 _ _ 1) 1 ≠ none; rw [hk]; simp)
          hi (Or.inr hge) hin1 hout1
        refine ⟨s1, hstep.trans hs1, ?_, ?_, ?_, ?_⟩
        · intro i g hi1 hi2 hop hlow hg
          by_cases hin' : i ≤ n
          · exact p1 i g hi1 hin' hop hlow hg
          · have hi3 : i = n + 1 := by omega
            subst hi3
            exact absurd hop hlt
        · intro hnone
          rw [p2 (fun j a b => hnone j a (by omega))]
          exact hzero
        · intro i g hi1 hi2 hop hlow hg
          by_cases hin' : i ≤ n
          · exact p3 i g hi1 hin' hop hlow hg
          · have hi3 : i = n + 1 := by omega
            subst hi3
            rw [hf] at hg
            have hfg : f = g := Option.some.inj hg
            rw [p4 (fun j a b => hlow j a (by omega))]
            show fdGet (sys_dup2 _ _ 1) 1 = _
            rw [hk, hfg]
        · intro hnone
          exact absurd hgt (hnone (n + 1) (by omega) (by omega))
      · have hnlt : ¬ tokenIs (param params (n + 1)) "<" = true :=
          fun h => hlt ((tokenIs_iff _ _).1 h)
        have hngt : ¬ tokenIs (param params (n + 1)) ">" = true :=
          fun h => hgt ((tokenIs_iff _ _).1 h)
        have hstep : redirect_scan os params (n + 1) inputFD outputFD s =
            redirect_scan os params n inputFD outputFD s := by
          rw [redirect_scan, if_neg hnlt, if_neg hngt]
        obtain ⟨s1, hs1, p1, p2, p3, p4⟩ := ih inputFD outputFD s h0 h1 hi ho hin1 hout1
        refine ⟨s1, hstep.trans hs1, ?_, ?_, ?_, ?_⟩
        · intro i g hi1 hi2 hop hlow hg
          by_cases hin' : i ≤ n
          · exact p1 i g hi1 hin' hop hlow hg
          · have hi3 : i = n + 1 := by omega
            subst hi3
            exact absurd hop hlt
        · intro hnone
          exact p2 (fun j a b => hnone j a (by omega))
        · intro i g hi1 hi2 hop hlow hg
          by_cases hin' : i ≤ n
          · exact p3 i g hi1 hin' hop hlow hg
          · have hi3 : i = n + 1 := by omega
            subst hi3
            exact absurd hop hgt
        · intro hnone
          exact p4 (fun j a b => hnone j a (by omega))

/-- C8, as the claim states it, fails: started with descriptor 1 closed, the
foreground command `cat < in` has no ">" token and its one `open` succeeds,
yet `open` hands out descriptor 1 for `in`, so after `redirect_in_out`
descriptor 1 is bound to `in` instead of being left as it was. -/
theorem redirect_in_out_rebinds_closed_stdout :
    sampleOS.openable "in" .rdonly = true ∧
    fdGet stdoutClosed.fds 1 = none ∧
    redirect_in_out sampleOS stdoutClosed [some "cat", some "<", some "in"] 3 1 =
      Outcome.returned 0
        { stdoutClosed with
          fds := [some { path := "in", mode := .rdonly },
                  some { path := "in", mode := .rdonly },
                  some { path := "/dev/tty", mode := .wronly }] } ∧
    fdGet (redirect_in_out sampleOS stdoutClosed
      [some "cat", some "<", some "in"] 3 1).state.fds 1 =
      some { path := "in", mode := .rdonly } := by
  decide

/-- C8, amended: with descriptors 0 and 1 open on entry and every `open` the call makes
succeeding, `redirect_in_out(params, argc, foreground)` returns, and afterwards
descriptor 1 is bound to the file named by the token after the lowest-indexed
">" at an index from 1 to `argc - 1` if there is one, otherwise to
`/dev/null` if `foreground` is 0, otherwise to what it was bound to before;
the same holds for descriptor 0 with "<". -/
theorem redirect_in_out_binds (os : OS) (s : Shell) (params : List (Option String))
    (argc : Nat) (foreground : Int)
    (h0 : fdGet s.fds 0 ≠ none) (h1 : fdGet s.fds 1 ≠ none)
    (hnull : foreground = 0 →
      os.openable "/dev/null" .rdonly = true ∧ os.openable "/dev/null" .wronly = true)
    (hin : ∀ i, 1 ≤ i → i < argc → param params i = some "<" →
      ∃ f, param params (i + 1) = some f ∧ os.openable f .rdonly = true)
    (hout : ∀ i, 1 ≤ i → i < argc → param params i = some ">" →
      ∃ f, param params (i + 1) = some f ∧ os.openable f .wronly_creat_trunc = true) :
    ∃ s1, redirect_in_out os s params argc foreground = Outcome.returned 0 s1 ∧
      (∀ i f, 1 ≤ i → i < argc → param params i = some ">" →
        (∀ j, 1 ≤ j → j < i → param params j ≠ some ">") →
        param params (i + 1) = some f →
        fdGet s1.fds 1 = some { path := f, mode := .wronly_creat_trunc }) ∧
      ((∀ j, 1 ≤ j → j < argc → param params j ≠ some ">") →
        fdGet s1.fds 1 =
          if foreground = 0 then some { path := "/dev/null", mode := .wronly }
          else fdGet s.fds 1) ∧
      (∀ i f, 1 ≤ i → i < argc → param params i = some "<" →
        (∀ j, 1 ≤ j → j < i → param params j ≠ some "<") →
        param params (i + 1) = some f →
        fdGet s1.fds 0 = some { path := f, mode := .rdonly }) ∧
      ((∀ j, 1 ≤ j → j < argc → param params j ≠ some "<") →
        fdGet s1.fds 0 =
          if foreground = 0 then some { path := "/dev/null", mode := .rdonly }
          else fdGet s.fds 0) := by
  have hin1 : ∀ i, 1 ≤ i → i ≤ argc - 1 → param params i = some "<" →
      ∃ f, param params (i + 1) = some f ∧ os.openable f .rdonly = true :=
    fun i a b c => hin i a (by omega) c
  have hout1 : ∀ i, 1 ≤ i → i ≤ argc - 1 → param params i = some ">" →
      ∃ f, param params (i + 1) = some f ∧ os.openable f .wronly_creat_trunc = true :=
    fun i a b c => hout i a (by omega) c
  have hclose : ∀ t : FdTable, sys_close t (-1) = t := by
    intro t; simp [sys_close]
  by_cases hfg : foreground = 0
  · obtain ⟨hnr, hnw⟩ := hnull hfg
    have key1 := open_dup_step os s.fds (-1) "/dev/null" .rdonly 0 h0 h1 (Or.inl rfl) hnr
    rw [hclose] at key1
    generalize hr : sys_open os s.fds (some "/dev/null") .rdonly = r at key1
    obtain ⟨hge1, hk1, hother1⟩ := key1
    have hone := hother1 1 (by omega) (by omega)
    simp only [Nat.cast_one, Nat.cast_zero] at hone hk1
    have key2 := open_dup_step os (sys_dup2 r.2 r.1 0) (-1) "/dev/null" .wronly 1
      (by rw [hk1]; simp) (by rw [hone]; exact h1) (Or.inl rfl) hnw
    rw [hclose] at key2
    generalize hq : sys_open os (sys_dup2 r.2 r.1 0) (some "/dev/null") .wronly = q at key2
    obtain ⟨hge2, hk2, hother2⟩ := key2
    have hzero := hother2 0 (by omega) (by omega)
    simp only [Nat.cast_one, Nat.cast_zero] at hzero hk2
    have hdef : redirect_in_out os s params argc foreground =
        redirect_scan os params (argc - 1) r.1 q.1 { s with fds := sys_dup2 q.2 q.1 1 } := by
      simp only [redirect_in_out, hfg, if_true, hr, hq]
    obtain ⟨s1, hs1, p1, p2, p3, p4⟩ := redirect_scan_spec os params (argc - 1) r.1 q.1
      { s with fds := sys_dup2 q.2 q.1 1 }
      (by show fdGet (sys_dup2 _ _ 1) 0 ≠ none; rw [hzero, hk1]; simp)
      (by show fdGet (sys_dup2 _ _ 1) 1 ≠ none; rw [hk2]; simp)
      (Or.inr hge1) (Or.inr hge2) hin1 hout1
    refine ⟨s1, hdef.trans hs1, ?_, ?_, ?_, ?_⟩
    · intro i f a b c d e
      exact p3 i f a (by omega) c d e
    · intro hnone
      rw [p4 (fun j a b => hnone j a (by omega)), if_pos hfg]
      exact hk2
    · intro i f a b c d e
      exact p1 i f a (by omega) c d e
    · intro hnone
      rw [p2 (fun j a b => hnone j a (by omega)), if_pos hfg]
      show fdGet (sys_dup2 _ _ 1) 0 = _
      rw [hzero, hk1]
  · have hdef : redirect_in_out os s params argc foreground =
        redirect_scan os params (argc - 1) (-1) (-1) s := by
      simp only [redirect_in_out, hfg, if_false]
    obtain ⟨s1, hs1, p1, p2, p3, p4⟩ := redirect_scan_spec os params (argc - 1) (-1) (-1) s
      h0 h1 (Or.inl rfl) (Or.inl rfl) hin1 hout1
    refine ⟨s1, hdef.trans hs1, ?_, ?_, ?_, ?_⟩
    · intro i f a b c d e
      exact p3 i f a (by omega) c d e
    · intro hnone
      rw [p4 (fun j a b => hnone j a (by omega)), if_neg hfg]
    · intro i f a b c d e
      exact p1 i f a (by omega) c d e
    · intro hnone
      rw [p2 (fun j a b => hnone j a (by omega)), if_neg hfg]

/-- Witness of C8 amended: the background command `ls > out -l > late &`; the
lowest-indexed ">" is at index 1 and there is no "<". -/
theorem redirect_in_out_binds_witness :
    ∃ s1, redirect_in_out sampleOS initial
        [some "ls", some ">", some "out", some "-l", some ">", some "late", some "&"] 7 0
        = Outcome.returned 0 s1 ∧
      fdGet s1.fds 1 = some { path := "out", mode := .wronly_creat_trunc } ∧
      fdGet s1.fds 0 = some { path := "/dev/null", mode := .rdonly } := by
  obtain ⟨s1, hs1, p1, _, _, p4⟩ := redirect_in_out_binds sampleOS initial
    [some "ls", some ">", some "out", some "-l", some ">", some "late", some "&"] 7 0
    (by decide) (by decide) (fun _ => by decide)
    (by
      intro i a b c
      interval_cases i <;> simp [param] at c)
    (by
      intro i a b c
      interval_cases i <;> simp [param] at c
      · exact ⟨"out", rfl, by decide⟩
      · exact ⟨"late", rfl, by decide⟩)
  refine ⟨s1, hs1, ?_, ?_⟩
  · exact p1 1 "out" (by decide) (by decide) rfl (fun j a b => by omega) rfl
  · have h := p4 (by
      intro j a b
      interval_cases j <;> simp [param])
    simpa using h

/-! ## C9: the `$$` expansion of `getInput` -/

theorem replicate_NUL_append (a b : Nat) :
    List.replicate a NUL ++ List.replicate b NUL = List.replicate (a + b) NUL := by
  induction a with
  | zero => simp
  | succ a ih =>
    rw [List.replicate_succ, List.cons_append, ih, Nat.succ_add, List.replicate_succ]

theorem memsetPointerSize_zeroed (n : Nat) :
    memsetPointerSize (List.replicate n NUL) = List.replicate n NUL := by
  unfold memsetPointerSize
  rw [List.drop_replicate, replicate_NUL_append, List.length_replicate]
  congr 1
  omega

theorem cstring_padded (out : List Char) (pad : Nat) (hout : NUL ∉ out) :
    cstring (out ++ List.replicate pad NUL) = out := by
  unfold cstring
  rw [List.takeWhile_append_of_pos, List.takeWhile_replicate]
  · simp
  · intro a ha
    rw [bne_iff_ne]
    intro e
    exact hout (e ▸ ha)

theorem strlen_padded (out : List Char) (pad : Nat) (hout : NUL ∉ out) :
    strlen (out ++ List.replicate pad NUL) = out.length := by
  have h := cstring_padded out pad hout
  unfold cstring at h
  unfold strlen
  rw [h]

theorem set_at_end (pre : List Char) (y : Char) (suf : List Char) (c : Char) :
    (pre ++ y :: suf).set pre.length c = pre ++ c :: suf := by
  rw [List.set_append_right _ _ (Nat.le_refl _), Nat.sub_self, List.set_cons_zero]

theorem strcpy_at_end (src : List Char) :
    ∀ (pre suf : List Char), src.length < suf.length →
      strcpy (pre ++ suf) pre.length src = pre ++ src ++ NUL :: suf.drop (src.length + 1) := by
  induction src with
  | nil =>
    intro pre suf h
    cases suf with
    | nil => simp at h
    | cons y suf1 => simp [strcpy, set_at_end]
  | cons c src ih =>
    intro pre suf h
    cases suf with
    | nil => simp at h
    | cons y suf1 =>
      have h1 : src.length < suf1.length := by simpa using h
      have e := ih (pre ++ [c]) suf1 h1
      simp only [List.length_append, List.length_singleton] at e
      rw [strcpy, set_at_end, List.append_cons pre c suf1, e]
      simp

theorem expandDollars_pair (pid r : List Char) :
    expandDollars pid (DOLLAR :: DOLLAR :: r) = pid ++ expandDollars pid r := by
  simp [expandDollars]

theorem expandDollars_cons_ne (pid r : List Char) (c : Char) (hc : c ≠ DOLLAR) :
    expandDollars pid (c :: r) = c :: expandDollars pid r := by
  cases r with
  | nil => simp [expandDollars]
  | cons e r1 => simp [expandDollars, hc]

theorem expandDollars_dollar_ne (pid r : List Char) (c : Char) (hc : c ≠ DOLLAR) :
    expandDollars pid (DOLLAR :: c :: r) = DOLLAR :: c :: expandDollars pid r := by
  rw [expandDollars, if_neg (fun h => hc h.2), expandDollars_cons_ne pid r c hc]

theorem copy_loop_spec (pid : List Char) (hpid : NUL ∉ pid) :
    ∀ (rest done pending : List Char) (pad : Nat),
      NUL ∉ rest → NUL ∉ done → (pending = [] ∨ pending = [DOLLAR]) →
      (done ++ pending).length + pad = MAX_CHAR →
      (∀ k, k ≤ rest.length →
        (done ++ expandDollars pid (pending ++ rest.take k)).length < MAX_CHAR) →
      (∀ k, k < rest.length →
        (done ++ expandDollars pid (pending ++ rest.take k)).length < MAX_CHAR - 2) →
      cstring (copy_loop pid rest (done ++ pending ++ List.replicate pad NUL)
        (done ++ pending).length pending.length) =
        done ++ expandDollars pid (pending ++ rest) := by
  have hD : DOLLAR ≠ NUL := by decide
  intro rest
  induction rest with
  | nil =>
    intro done pending pad _ hdone hpend _ _ _
    rcases hpend with h | h
    · subst h
      simp only [copy_loop, List.append_nil, expandDollars]
      exact cstring_padded done pad hdone
    · subst h
      simp only [copy_loop, List.append_nil, expandDollars]
      apply cstring_padded
      simp only [List.mem_append, List.mem_singleton, not_or]
      exact ⟨hdone, fun e => hD e.symm⟩
  | cons c rest ih =>
    intro done pending pad hrest hdone hpend hlen hfit hbound
    have hc0 : c ≠ NUL := fun e => hrest (e ▸ List.mem_cons_self _ _)
    have hrest1 : NUL ∉ rest := fun h => hrest (List.mem_cons_of_mem _ h)
    have hpe : expandDollars pid pending = pending := by
      rcases hpend with h | h <;> subst h <;> simp [expandDollars]
    have hcur : (done ++ pending).length < MAX_CHAR - 2 := by
      have h := hbound 0 (by simp)
      simpa [hpe] using h
    rcases hpend with hp | hp
    · subst hp
      obtain ⟨pad1, rfl⟩ : ∃ q, pad = q + 1 := ⟨pad - 1, by simp at hlen hcur; omega⟩
      simp only [List.append_nil, List.length_nil, List.nil_append] at *
      by_cases hc : c = DOLLAR
      · subst hc
        have hih := ih done [DOLLAR] pad1 hrest1 hdone (Or.inr rfl)
          (by simp; omega)
          (fun k hk => by
            have h := hfit (k + 1) (by simp; omega)
            simpa using h)
          (fun k hk => by
            have h := hbound (k + 1) (by simp; omega)
            simpa using h)
        rw [copy_loop, if_pos hcur, if_neg (by simp), List.replicate_succ, set_at_end]
        simpa using hih
      · have hih := ih (done ++ [c]) [] pad1 hrest1
          (by
            simp only [List.mem_append, List.mem_singleton, not_or]
            exact ⟨hdone, fun e => hc0 e.symm⟩)
          (Or.inl rfl)
          (by simp; omega)
          (fun k hk => by
            have h := hfit (k + 1) (by simp; omega)
            simpa [expandDollars_cons_ne _ _ _ hc] using h)
          (fun k hk => by
            have h := hbound (k + 1) (by simp; omega)
            simpa [expandDollars_cons_ne _ _ _ hc] using h)
        rw [copy_loop, if_pos hcur, if_neg (fun h => hc h.1), List.replicate_succ, set_at_end,
          expandDollars_cons_ne _ _ _ hc]
        simpa [hc] using hih
    · subst hp
      by_cases hc : c = DOLLAR
      · subst hc
        have hpl : pid.length < (DOLLAR :: List.replicate pad NUL).length := by
          have h := hfit 1 (by simp)
          simp [expandDollars] at h hlen ⊢
          omega
        have hcopy := strcpy_at_end pid done (DOLLAR :: List.replicate pad NUL) hpl
        have hnul : NUL ∉ done ++ pid := by
          simp only [List.mem_append, not_or]
          exact ⟨hdone, hpid⟩
        have hbuf : strcpy (done ++ [DOLLAR] ++ List.replicate pad NUL)
            ((done ++ [DOLLAR]).length - 1) pid =
            done ++ pid ++ [] ++ List.replicate (pad - pid.length + 1) NUL := by
          have e1 : (done ++ [DOLLAR]).length - 1 = done.length := by simp
          rw [e1, List.append_assoc, List.singleton_append, hcopy]
          simp [List.drop_replicate, List.replicate_succ]
        have hih := ih (done ++ pid) [] (pad - pid.length + 1) hrest1 hnul (Or.inl rfl)
          (by simp at hpl hlen ⊢; omega)
          (fun k hk => by
            have h := hfit (k + 1) (by simp; omega)
            simpa [expandDollars_pair] using h)
          (fun k hk => by
            have h := hbound (k + 1) (by simp; omega)
            simpa [expandDollars_pair] using h)
        rw [copy_loop, if_pos hcur, if_pos ⟨rfl, rfl⟩, hbuf]
        have hlen2 : strlen (done ++ pid ++ [] ++ List.replicate (pad - pid.length + 1) NUL) =
            (done ++ pid ++ []).length := by
          rw [List.append_nil]
          exact strlen_padded _ _ hnul
        rw [hlen2]
        simpa [expandDollars_pair] using hih
      · obtain ⟨pad1, rfl⟩ : ∃ q, pad = q + 1 := ⟨pad - 1, by simp at hlen hcur; omega⟩
        have hih := ih (done ++ [DOLLAR] ++ [c]) [] pad1 hrest1
          (by
            simp only [List.mem_append, List.mem_singleton, not_or]
            exact ⟨⟨hdone, fun e => hD e.symm⟩, fun e => hc0 e.symm⟩)
          (Or.inl rfl)
          (by simp at hlen ⊢; omega)
          (fun k hk => by
            have h := hfit (k + 1) (by simp; omega)
            simpa [expandDollars_dollar_ne _ _ _ hc] using h)
          (fun k hk => by
            have h := hbound (k + 1) (by simp; omega)
            simpa [expandDollars_dollar_ne _ _ _ hc] using h)
        rw [copy_loop, if_pos hcur, if_neg (fun h => hc h.1), List.replicate_succ, set_at_end]
        simpa [hc, expandDollars_dollar_ne _ _ _ hc] using hih

theorem chomp_no_NUL (raw : List Char) : NUL ∉ chomp raw := by
  intro h
  have hp := List.mem_takeWhile_imp h
  simp at hp

/-- C9: `main` hands `getInput` a zeroed buffer of `MAX_CHAR` characters.  When
the copy loop is not stopped by its `MAX_CHAR - 2` bound (before each
character of the line is read, the text copied so far is shorter than
`MAX_CHAR - 2`) and the copied text always fits the buffer, the command
buffer holds the line with each pair of dollar signs, taken left to right,
replaced by `pid` and every other character, a single dollar sign included,
copied unchanged. -/
theorem getInput_expands (pid raw : List Char) (hpid : NUL ∉ pid)
    (hfit : ∀ k, k ≤ (chomp raw).length →
      (expandDollars pid ((chomp raw).take k)).length < MAX_CHAR)
    (hbound : ∀ k, k < (chomp raw).length →
      (expandDollars pid ((chomp raw).take k)).length < MAX_CHAR - 2) :
    cstring (getInput pid raw (List.replicate MAX_CHAR NUL)) =
      expandDollars pid (chomp raw) := by
  have h := copy_loop_spec pid hpid (chomp raw) [] [] MAX_CHAR (chomp_no_NUL raw)
    (by simp) (Or.inl rfl) (by simp)
    (fun k hk => by simpa using hfit k hk)
    (fun k hk => by simpa using hbound k hk)
  unfold getInput
  rw [memsetPointerSize_zeroed]
  simpa using h

/-- Witness of C9: the line `echo $$ a$b $$$` read by the shell with process
id 1234. -/
theorem getInput_expands_witness :
    cstring (getInput "1234".toList "echo $$ a$b $$$\n".toList (List.replicate MAX_CHAR NUL)) =
      expandDollars "1234".toList (chomp "echo $$ a$b $$$\n".toList) ∧
    expandDollars "1234".toList (chomp "echo $$ a$b $$$\n".toList) =
      "echo 1234 a$b 1234$".toList :=
  ⟨getInput_expands "1234".toList "echo $$ a$b $$$\n".toList (by decide) (by decide)
    (by decide), by decide⟩

/-! ## C11: a failing `cd` -/

theorem redirect_scan_no_operator (os : OS) (params : List (Option String)) (n : Nat)
    (inputFD outputFD : Int) (s : Shell)
    (hno : ∀ i, 1 ≤ i → i ≤ n → param params i ≠ some "<" ∧ param params i ≠ some ">") :
    redirect_scan os params n inputFD outputFD s = Outcome.returned 0 s := by
  induction n with
  | zero => rfl
  | succ n ih =>
    have h := hno (n + 1) (by omega) (by omega)
    have h1 : ¬ tokenIs (param params (n + 1)) "<" = true :=
      fun e => h.1 ((tokenIs_iff _ _).1 e)
    have h2 : ¬ tokenIs (param params (n + 1)) ">" = true :=
      fun e => h.2 ((tokenIs_iff _ _).1 e)
    rw [redirect_scan, if_neg h1, if_neg h2]
    exact ih (fun i a b => hno i a (by omega))

theorem is_builtin_cd (params : List (Option String)) (hcd : param params 0 = some "cd") :
    is_builtin params = 1 := by
  unfold is_builtin
  rw [hcd]
  decide

/-- C11, as the claim states it, fails: from the same state, `cd nodir` (where
`chdir` fails with -1) and `cd /tmp` (where it succeeds with 0) leave the same
`foreground_status` and `is_exit`, and the `status` built-in run next prints
the same line, "exit value 0", after both. -/
theorem cd_failure_leaves_same_record :
    (cd sampleOS initial [some "cd", some "nodir"]).1 = -1 ∧
    (cd sampleOS initial [some "cd", some "/tmp"]).1 = 0 ∧
    (execute sampleOS initial [some "cd", some "nodir"] 2).state.foreground_status =
      (execute sampleOS initial [some "cd", some "/tmp"] 2).state.foreground_status ∧
    (execute sampleOS initial [some "cd", some "nodir"] 2).state.is_exit =
      (execute sampleOS initial [some "cd", some "/tmp"] 2).state.is_exit ∧
    (status (execute sampleOS initial [some "cd", some "nodir"] 2).state).2.stdout =
      ["exit value 0\n"] ∧
    (status (execute sampleOS initial [some "cd", some "/tmp"] 2).state).2.stdout =
      ["exit value 0\n"] := by
  decide

/-- C11, amended: for a `cd` line without "<" or ">" tokens, `execute` returns
0, which is not `EXIT`, whether `chdir` fails or succeeds; it prints nothing
and leaves `foreground_status` and `is_exit` as they were, so the `status`
built-in run next prints the line it would have printed before the `cd`; when
`chdir` fails the whole shell state is unchanged. -/
theorem cd_failure_not_recorded (os : OS) (s : Shell) (params : List (Option String))
    (argc : Nat) (hcd : param params 0 = some "cd")
    (hno : ∀ i, 1 ≤ i → i < argc →
      param params i ≠ some "<" ∧ param params i ≠ some ">") :
    ∃ s1, execute os s params argc = Outcome.returned 0 s1 ∧ (0 : Int) ≠ EXIT ∧
      s1.foreground_status = s.foreground_status ∧ s1.is_exit = s.is_exit ∧
      s1.stdout = s.stdout ∧
      (status s1).2.stdout = (status s).2.stdout ∧
      ((cd os s (clean params argc)).1 ≠ 0 → s1 = s) := by
  have hscan : redirect_in_out os s params argc 1 = Outcome.returned 0 s := by
    unfold redirect_in_out
    rw [if_neg (by decide)]
    exact redirect_scan_no_operator os params (argc - 1) (-1) (-1) s
      (fun i a b => hno i a (by omega))
  have hexec : execute os s params argc =
      Outcome.returned 0 (cd os s (clean params argc)).2 := by
    unfold execute
    rw [if_pos (is_builtin_cd params hcd)]
    unfold exec_builtin
    rw [hscan]
    simp only [(tokenIs_iff _ _).2 hcd, if_true]
  refine ⟨(cd os s (clean params argc)).2, hexec, by decide, ?_⟩
  have hcases : (cd os s (clean params argc)).2 = s ∨
      ∃ p, (cd os s (clean params argc)) = (0, { s with cwd := p }) := by
    unfold cd
    cases param (clean params argc) 1 with
    | none =>
      cases hh : os.home with
      | none => left; simp [sys_chdir]
      | some h =>
        by_cases hc : os.chdir h = true
        · right; exact ⟨h, by simp [sys_chdir, hc]⟩
        · left; simp [sys_chdir, hc]
    | some p =>
      by_cases hc : os.chdir p = true
      · right; exact ⟨p, by simp [sys_chdir, hc]⟩
      · left; simp [sys_chdir, hc]
  rcases hcases with h | ⟨p, h⟩
  · rw [h]
    exact ⟨rfl, rfl, rfl, rfl, fun _ => rfl⟩
  · rw [h]
    refine ⟨rfl, rfl, rfl, ?_, ?_⟩
    · simp [status, Shell.print]
      split_ifs <;> rfl
    · intro hne
      exact absurd rfl hne

/-- Witness of C11 amended: `cd nodir` in the initial shell, where `chdir`
fails. -/
theorem cd_failure_not_recorded_witness :
    ∃ s1, execute sampleOS initial [some "cd", some "nodir"] 2 = Outcome.returned 0 s1 ∧
      (0 : Int) ≠ EXIT ∧
      s1.foreground_status = initial.foreground_status ∧ s1.is_exit = initial.is_exit ∧
      s1.stdout = initial.stdout ∧
      (status s1).2.stdout = (status initial).2.stdout ∧
      ((cd sampleOS initial (clean [some "cd", some "nodir"] 2)).1 ≠ 0 → s1 = initial) :=
  cd_failure_not_recorded sampleOS initial [some "cd", some "nodir"] 2 (by decide)
    (by
      intro i a b
      interval_cases i
      decide)

/-! ## C12: the argument list the program receives -/

end SmallSh
